import Mathlib

/-!
Formal model of `paddlers/custom_models/cd/backbones/mnasnet.py`.

The file shallowly embeds the MNASNet construction code:

* Python floats are modelled as rationals (`ℚ`); the argument values the
  repository actually passes are exactly representable and far from every
  rounding boundary, so the rational semantics agrees with the float one on
  all inputs considered here.
* Python `int(x)` is truncation toward zero (`pyTrunc`), `x // y` on
  integers is flooring division (`Int.fdiv`), `max` is `max`.
* Python `assert` is modelled by returning `Except.error` (an
  `AssertionError` aborts the surrounding construction); functions that can
  hit an assert return `Except String _`, and the pure core computation of
  `_round_to_multiple_of` (everything after its assert) is split into a
  total function so that it can be reasoned about directly.
* The framework layers (`paddle.nn.Conv2D`, `BatchNorm2D`, `ReLU`,
  `AdaptiveAvgPool2D`, `Flatten`, `Linear`) are external black boxes; they
  are modelled at the shape level: a tensor is its `NCHW` shape list, and
  each layer is the documented shape transformer, `none` standing for a
  framework error on a shape mismatch.  The value-level residual logic of
  `_InvertedResidual` is additionally modelled over an arbitrary additive
  carrier with an abstract `layers` pipeline.
-/

/-- Truncation toward zero on `ℚ`, the semantics of Python `int()` applied
to a float. -/
def pyTrunc (q : ℚ) : ℤ := if 0 ≤ q then ⌊q⌋ else ⌈q⌉

/-- Core computation of `_round_to_multiple_of(val, divisor, round_up_bias)`
(mnasnet.py lines 58-64), everything after its assert:
`new_val = max(divisor, int(val + divisor / 2) // divisor * divisor)` and
`return new_val if new_val >= round_up_bias * val else new_val + divisor`.
The assert on `round_up_bias` is carried by `_round_to_multiple_ofE`. -/
def _round_to_multiple_of (val : ℚ) (divisor : ℤ) (round_up_bias : ℚ) : ℤ :=
  let new_val := max divisor ((pyTrunc (val + (divisor : ℚ) / 2)).fdiv divisor * divisor)
  if round_up_bias * val ≤ (new_val : ℚ) then new_val else new_val + divisor

/-- Full `_round_to_multiple_of` including its
`assert 0.0 < round_up_bias < 1.0` (mnasnet.py line 62).  The Python
default for `round_up_bias` is `0.9`; call sites pass `9/10` explicitly. -/
def _round_to_multiple_ofE (val : ℚ) (divisor : ℤ) (round_up_bias : ℚ) : Except String ℤ :=
  if 0 < round_up_bias ∧ round_up_bias < 1 then
    .ok (_round_to_multiple_of val divisor round_up_bias)
  else .error "AssertionError: round_up_bias"

/-- Reference depth list `[32, 16, 24, 40, 80, 96, 192, 320]` of
`_get_depths` (mnasnet.py line 70). -/
def referenceDepths : List ℤ := [32, 16, 24, 40, 80, 96, 192, 320]

/-- Sequencing of a fallible function over a list, the semantics of a
Python list comprehension (or accumulation loop) whose body may raise: the
first raise aborts the whole construction. -/
def mapExcept {α β : Type} (f : α → Except String β) : List α → Except String (List β)
  | [] => .ok []
  | a :: l => do
    let b ← f a
    let bs ← mapExcept f l
    .ok (b :: bs)

/-- `_get_depths(alpha)` (mnasnet.py lines 67-71) with the asserts of the
called `_round_to_multiple_of` propagated: the list comprehension
`[_round_to_multiple_of(depth * alpha, 8) for depth in depths]`, any raise
aborting the whole list. -/
def _get_depthsE (alpha : ℚ) : Except String (List ℤ) :=
  mapExcept (fun depth => _round_to_multiple_ofE ((depth : ℚ) * alpha) 8 (9 / 10))
    referenceDepths

/-- Pure value of `_get_depths(alpha)`: since the default bias `0.9` always
satisfies the assert of `_round_to_multiple_of`, the comprehension never
raises and computes this list. -/
def _get_depths (alpha : ℚ) : List ℤ :=
  referenceDepths.map (fun depth => _round_to_multiple_of ((depth : ℚ) * alpha) 8 (9 / 10))

/-- Sub-block `_InvertedResidual` (mnasnet.py lines 13-42).  The Python
object stores `apply_residual` and the `layers` pipeline; the constructor
arguments `in_ch`, `out_ch`, `kernel_size`, `stride` are kept as fields as
well (in Python they are observable through the convolution layers built
inside `layers`).  `T` is the tensor carrier. -/
structure _InvertedResidual (T : Type) where
  in_ch : ℤ
  out_ch : ℤ
  kernel_size : ℤ
  stride : ℤ
  apply_residual : Bool
  layers : T → T

/-- Constructor `_InvertedResidual.__init__` (mnasnet.py lines 14-36):
`assert stride in [1, 2]`, `assert kernel_size in [3, 5]`,
`self.apply_residual = in_ch == out_ch and stride == 1`, and the `layers`
pipeline built by the framework from the arguments; the framework build is
abstracted as `mkLayers`. -/
def _InvertedResidual.init {T : Type}
    (mkLayers : ℤ → ℤ → ℤ → ℤ → ℤ → ℚ → (T → T))
    (in_ch out_ch kernel_size stride expansion_factor : ℤ) (bn_momentum : ℚ) :
    Except String (_InvertedResidual T) :=
  if stride = 1 ∨ stride = 2 then
    if kernel_size = 3 ∨ kernel_size = 5 then
      .ok { in_ch := in_ch, out_ch := out_ch, kernel_size := kernel_size, stride := stride,
            apply_residual := decide (in_ch = out_ch ∧ stride = 1),
            layers := mkLayers in_ch out_ch kernel_size stride expansion_factor bn_momentum }
    else .error "AssertionError: kernel_size not in [3, 5]"
  else .error "AssertionError: stride not in [1, 2]"

/-- Forward pass `_InvertedResidual.forward` (mnasnet.py lines 38-42):
`self.layers(input) + input` when `self.apply_residual`, else
`self.layers(input)`. -/
def _InvertedResidual.forward {T : Type} [Add T] (b : _InvertedResidual T) (input : T) : T :=
  if b.apply_residual then b.layers input + input else b.layers input

/-- Stage builder `_stack` (mnasnet.py lines 45-55): `assert repeats >= 1`,
one first block with the given stride mapping `in_ch` to `out_ch`, then
`repeats - 1` blocks with stride `1` mapping `out_ch` to `out_ch`
(`for _ in range(1, repeats)`). -/
def _stack {T : Type} (mkLayers : ℤ → ℤ → ℤ → ℤ → ℤ → ℚ → (T → T))
    (in_ch out_ch kernel_size stride exp_factor repeats : ℤ) (bn_momentum : ℚ) :
    Except String (List (_InvertedResidual T)) :=
  if 1 ≤ repeats then do
    let first ← _InvertedResidual.init mkLayers in_ch out_ch kernel_size stride exp_factor
      bn_momentum
    let remaining ← mapExcept (fun _ =>
      _InvertedResidual.init mkLayers out_ch out_ch kernel_size 1 exp_factor bn_momentum)
      (List.range (repeats - 1).toNat)
    .ok (first :: remaining)
  else .error "AssertionError: repeats"

/-- Shape-level tensor: its `NCHW` (or generally rank-n) shape. -/
structure Tensor where
  shape : List ℤ

/-- Elementwise addition of two tensors at shape level: defined when both
operands exist and the shapes coincide (the only case the network
exercises; broadcasting is not needed here). -/
def addTensor : Option Tensor → Option Tensor → Option Tensor
  | some a, some b => if a.shape = b.shape then some a else none
  | _, _ => none

instance instAddOptionTensor : Add (Option Tensor) := ⟨addTensor⟩

/-- Shape transformer of a framework layer: `none` is a framework error. -/
def PaddleLayer : Type := Option Tensor → Option Tensor

/-- Shape rule of `paddle.nn.Conv2D(in_channels, out_channels, kernel_size,
padding, stride, groups)` on an `NCHW` tensor: the channel count must match
`in_channels`, channels must be divisible by `groups`, and the spatial
output size is `(x + 2 * padding - kernel_size) / stride + 1`. -/
def conv2D (in_channels out_channels kernel_size padding stride groups : ℤ) : PaddleLayer
  | some t =>
    match t.shape with
    | [n, c, h, w] =>
      if c = in_channels ∧ in_channels % groups = 0 ∧ out_channels % groups = 0 ∧
          0 < stride ∧ kernel_size ≤ h + 2 * padding ∧ kernel_size ≤ w + 2 * padding then
        some ⟨[n, out_channels, (h + 2 * padding - kernel_size) / stride + 1,
               (w + 2 * padding - kernel_size) / stride + 1]⟩
      else none
    | _ => none
  | none => none

/-- Shape rule of `paddle.nn.BatchNorm2D(num_features)`: the channel count
must equal `num_features`; the shape is preserved.  The momentum argument
does not affect shapes. -/
def batchNorm2D (num_features : ℤ) (momentum : ℚ) : PaddleLayer
  | some t =>
    match t.shape with
    | [n, c, h, w] => if c = num_features then some ⟨[n, c, h, w]⟩ else none
    | _ => none
  | none => none

/-- Shape rule of `paddle.nn.ReLU()`: shapes are preserved. -/
def relu : PaddleLayer := fun x => x

/-- Shape rule of `paddle.nn.AdaptiveAvgPool2D(output_size)`: the spatial
dimensions become `output_size` by `output_size`. -/
def adaptiveAvgPool2D (output_size : ℤ) : PaddleLayer
  | some t =>
    match t.shape with
    | [n, c, _, _] => some ⟨[n, c, output_size, output_size]⟩
    | _ => none
  | none => none

/-- Shape rule of `paddle.nn.Flatten()` with its default axes 1 through -1:
an `NCHW` tensor becomes `(N, C * H * W)`. -/
def flatten : PaddleLayer
  | some t =>
    match t.shape with
    | [n, c, h, w] => some ⟨[n, c * h * w]⟩
    | _ => none
  | none => none

/-- Shape rule of `paddle.nn.Linear(in_features, out_features)` on the
rank-2 input the network feeds it: the feature dimension must equal
`in_features` and becomes `out_features`. -/
def linear (in_features out_features : ℤ) : PaddleLayer
  | some t =>
    match t.shape with
    | [n, f] => if f = in_features then some ⟨[n, out_features]⟩ else none
    | _ => none
  | none => none

/-- Shape rule of `paddle.nn.Sequential(...)`: layers applied in order. -/
def sequential (ls : List PaddleLayer) : PaddleLayer :=
  fun x => ls.foldl (fun acc f => f acc) x

/-- Shape-level build of the `nn.Sequential` body of
`_InvertedResidual.__init__` (mnasnet.py lines 23-36), with
`mid_ch = in_ch * expansion_factor`: pointwise expansion, depthwise
convolution with padding `kernel_size // 2`, linear pointwise projection,
each followed by batch normalization, the first two also by `ReLU`. -/
def invertedResidualLayers (in_ch out_ch kernel_size stride expansion_factor : ℤ)
    (bn_momentum : ℚ) : Option Tensor → Option Tensor :=
  sequential [
    conv2D in_ch (in_ch * expansion_factor) 1 0 1 1,
    batchNorm2D (in_ch * expansion_factor) bn_momentum,
    relu,
    conv2D (in_ch * expansion_factor) (in_ch * expansion_factor) kernel_size
      (kernel_size / 2) stride (in_ch * expansion_factor),
    batchNorm2D (in_ch * expansion_factor) bn_momentum,
    relu,
    conv2D (in_ch * expansion_factor) out_ch 1 0 1 1,
    batchNorm2D out_ch bn_momentum]

/-- Module constant `_BN_MOMENTUM = 0.9` (mnasnet.py line 10). -/
def _BN_MOMENTUM : ℚ := 9 / 10

/-- Sequential forward through a list of inverted-residual blocks, the
shape-level meaning of the `nn.Sequential` returned by `_stack`. -/
def seqBlocks (blocks : List (_InvertedResidual (Option Tensor))) : PaddleLayer :=
  sequential (blocks.map _InvertedResidual.forward)

/-- Network object `MNASNet` (mnasnet.py lines 74-120): the attributes set
by a successful `__init__`. -/
structure MNASNet where
  alpha : ℚ
  num_classes : ℤ
  layers : PaddleLayer
  classifier : PaddleLayer

/-- Constructor `MNASNet.__init__` (mnasnet.py lines 77-111):
`assert alpha > 0.0`, then `depths = _get_depths(alpha)`, the stem layers,
the six `_stack` stages with their hardcoded kernel, stride, expansion
factor and repeat count, the `1280`-channel head, pooling, flattening, and
the `Linear(1280, class_num)` classifier.  The unused `dropout` argument is
kept for signature fidelity. -/
def MNASNet.init (alpha : ℚ) (class_num : ℤ) (dropout : ℚ) : Except String MNASNet :=
  if 0 < alpha then do
    let depths ← _get_depthsE alpha
    let s3 ← _stack invertedResidualLayers (depths.getD 1 0) (depths.getD 2 0) 3 2 3 3
      _BN_MOMENTUM
    let s4 ← _stack invertedResidualLayers (depths.getD 2 0) (depths.getD 3 0) 5 2 3 3
      _BN_MOMENTUM
    let s5 ← _stack invertedResidualLayers (depths.getD 3 0) (depths.getD 4 0) 5 2 6 3
      _BN_MOMENTUM
    let s6 ← _stack invertedResidualLayers (depths.getD 4 0) (depths.getD 5 0) 3 1 6 2
      _BN_MOMENTUM
    let s7 ← _stack invertedResidualLayers (depths.getD 5 0) (depths.getD 6 0) 5 2 6 4
      _BN_MOMENTUM
    let s8 ← _stack invertedResidualLayers (depths.getD 6 0) (depths.getD 7 0) 3 1 6 1
      _BN_MOMENTUM
    .ok {
      alpha := alpha
      num_classes := class_num
      layers := sequential [
        conv2D 3 (depths.getD 0 0) 3 1 2 1,
        batchNorm2D (depths.getD 0 0) _BN_MOMENTUM,
        relu,
        conv2D (depths.getD 0 0) (depths.getD 0 0) 3 1 1 (depths.getD 0 0),
        batchNorm2D (depths.getD 0 0) _BN_MOMENTUM,
        relu,
        conv2D (depths.getD 0 0) (depths.getD 1 0) 1 0 1 1,
        batchNorm2D (depths.getD 1 0) _BN_MOMENTUM,
        relu,
        seqBlocks s3, seqBlocks s4, seqBlocks s5, seqBlocks s6, seqBlocks s7, seqBlocks s8,
        conv2D (depths.getD 7 0) 1280 1 0 1 1,
        batchNorm2D 1280 _BN_MOMENTUM,
        relu,
        adaptiveAvgPool2D 1,
        flatten]
      classifier := linear 1280 class_num }
  else .error "AssertionError: alpha"

/-- Forward pass `MNASNet.forward` (mnasnet.py lines 116-120):
`self.classifier(self.layers(x))`. -/
def MNASNet.forward (m : MNASNet) (x : Option Tensor) : Option Tensor :=
  m.classifier (m.layers x)

/-- Preset constructor `mnasnet0_5` (mnasnet.py lines 133-142). -/
def mnasnet0_5 (class_num : ℤ) (dropout : ℚ) : Except String MNASNet :=
  MNASNet.init (1 / 2) class_num dropout

/-- Preset constructor `mnasnet0_75` (mnasnet.py lines 145-155). -/
def mnasnet0_75 (class_num : ℤ) (dropout : ℚ) : Except String MNASNet :=
  MNASNet.init (3 / 4) class_num dropout

/-- Preset constructor `mnasnet1_0` (mnasnet.py lines 158-168). -/
def mnasnet1_0 (class_num : ℤ) (dropout : ℚ) : Except String MNASNet :=
  MNASNet.init 1 class_num dropout

/-- Preset constructor `mnasnet1_3` (mnasnet.py lines 171-180). -/
def mnasnet1_3 (class_num : ℤ) (dropout : ℚ) : Except String MNASNet :=
  MNASNet.init (13 / 10) class_num dropout

/-- Explicit form of the block list that `_stack` builds for a stage whose
stride is 2 (so the first block surely has no shortcut), used to state what
`MNASNet.init` computes. -/
def stageStride2 (in_ch out_ch kernel_size exp_factor : ℤ) (repeats : ℕ) :
    List (_InvertedResidual (Option Tensor)) :=
  ⟨in_ch, out_ch, kernel_size, 2, false,
    invertedResidualLayers in_ch out_ch kernel_size 2 exp_factor _BN_MOMENTUM⟩ ::
  List.replicate repeats
    ⟨out_ch, out_ch, kernel_size, 1, true,
      invertedResidualLayers out_ch out_ch kernel_size 1 exp_factor _BN_MOMENTUM⟩

/-- Explicit form of the block list that `_stack` builds for a stage whose
stride is 1 (the first block has the shortcut exactly when its channel
counts agree), used to state what `MNASNet.init` computes. -/
def stageStride1 (in_ch out_ch kernel_size exp_factor : ℤ) (repeats : ℕ) :
    List (_InvertedResidual (Option Tensor)) :=
  ⟨in_ch, out_ch, kernel_size, 1, decide (in_ch = out_ch),
    invertedResidualLayers in_ch out_ch kernel_size 1 exp_factor _BN_MOMENTUM⟩ ::
  List.replicate repeats
    ⟨out_ch, out_ch, kernel_size, 1, true,
      invertedResidualLayers out_ch out_ch kernel_size 1 exp_factor _BN_MOMENTUM⟩

/-- Layer pipeline a successful `MNASNet.init` assembles, with the eight
depth values as parameters and the six `_stack` results unfolded. -/
def assembledLayers (d0 d1 d2 d3 d4 d5 d6 d7 : ℤ) : PaddleLayer :=
  sequential [
    conv2D 3 d0 3 1 2 1,
    batchNorm2D d0 _BN_MOMENTUM,
    relu,
    conv2D d0 d0 3 1 1 d0,
    batchNorm2D d0 _BN_MOMENTUM,
    relu,
    conv2D d0 d1 1 0 1 1,
    batchNorm2D d1 _BN_MOMENTUM,
    relu,
    seqBlocks (stageStride2 d1 d2 3 3 2),
    seqBlocks (stageStride2 d2 d3 5 3 2),
    seqBlocks (stageStride2 d3 d4 5 6 2),
    seqBlocks (stageStride1 d4 d5 3 6 1),
    seqBlocks (stageStride2 d5 d6 5 6 3),
    seqBlocks (stageStride1 d6 d7 3 6 0),
    conv2D d7 1280 1 0 1 1,
    batchNorm2D 1280 _BN_MOMENTUM,
    relu,
    adaptiveAvgPool2D 1,
    flatten]

/-- Network object a successful `MNASNet.init` returns, with the depth
values as parameters. -/
def assembledNet (alpha : ℚ) (class_num d0 d1 d2 d3 d4 d5 d6 d7 : ℤ) : MNASNet where
  alpha := alpha
  num_classes := class_num
  layers := assembledLayers d0 d1 d2 d3 d4 d5 d6 d7
  classifier := linear 1280 class_num

/-! ## Helper lemmas about the rounding arithmetic -/

theorem fdiv_eight (a : ℤ) : a.fdiv 8 = a / 8 := Int.fdiv_eq_ediv a (by norm_num)

theorem pyTrunc_mono {q1 q2 : ℚ} (h : q1 ≤ q2) : pyTrunc q1 ≤ pyTrunc q2 := by
  unfold pyTrunc
  split_ifs with h1 h2 h2
  · exact Int.floor_mono h
  · exact absurd (le_trans h1 h) h2
  · calc ⌈q1⌉ ≤ ⌈(0:ℚ)⌉ := Int.ceil_mono (le_of_lt (lt_of_not_ge h1))
      _ = 0 := Int.ceil_zero
      _ ≤ ⌊q2⌋ := Int.le_floor.mpr (by exact_mod_cast h2)
  · exact Int.ceil_mono h

theorem roundCore_eq (val bias : ℚ) : _round_to_multiple_of val 8 bias =
    (if bias * val ≤ ((max 8 ((pyTrunc (val + 4)).fdiv 8 * 8) : ℤ) : ℚ)
     then max 8 ((pyTrunc (val + 4)).fdiv 8 * 8)
     else max 8 ((pyTrunc (val + 4)).fdiv 8 * 8) + 8) := by
  have h4 : ((8:ℤ) : ℚ) / 2 = 4 := by norm_num
  simp only [_round_to_multiple_of, h4]

theorem dvd_max_eight (t : ℤ) : (8:ℤ) ∣ max 8 (t * 8) := by
  rcases le_total (8:ℤ) (t * 8) with h | h
  · rw [max_eq_right h]; exact dvd_mul_left 8 t
  · rw [max_eq_left h]

theorem round_dvd (val bias : ℚ) : (8:ℤ) ∣ _round_to_multiple_of val 8 bias := by
  rw [roundCore_eq]
  split_ifs
  · exact dvd_max_eight _
  · exact dvd_add (dvd_max_eight _) ⟨1, rfl⟩

theorem round_ge_eight (val bias : ℚ) : 8 ≤ _round_to_multiple_of val 8 bias := by
  rw [roundCore_eq]
  have h : (8:ℤ) ≤ max 8 ((pyTrunc (val + 4)).fdiv 8 * 8) := le_max_left _ _
  split_ifs <;> omega

theorem round_of_nonpos {val bias : ℚ} (hval : val ≤ 0) (hb : 0 < bias) :
    _round_to_multiple_of val 8 bias = 8 := by
  have h4 : pyTrunc (4:ℚ) = 4 := by norm_num [pyTrunc]
  have ht : pyTrunc (val + 4) ≤ 4 := by
    have := pyTrunc_mono (show val + 4 ≤ (4:ℚ) by linarith)
    rwa [h4] at this
  have hf : (pyTrunc (val + 4)).fdiv 8 ≤ 0 := by
    rw [fdiv_eight]
    have := Int.ediv_le_ediv (show (0:ℤ) < 8 by norm_num) ht
    omega
  have hnew : max (8:ℤ) ((pyTrunc (val + 4)).fdiv 8 * 8) = 8 :=
    max_eq_left (by nlinarith)
  rw [roundCore_eq, hnew, if_pos]
  have : bias * val ≤ 0 := mul_nonpos_iff.mpr (Or.inl ⟨hb.le, hval⟩)
  push_cast
  linarith

theorem roundE_ok {bias : ℚ} (hb0 : 0 < bias) (hb1 : bias < 1) (val : ℚ) (divisor : ℤ) :
    _round_to_multiple_ofE val divisor bias = .ok (_round_to_multiple_of val divisor bias) :=
  if_pos ⟨hb0, hb1⟩

theorem mapExcept_ok {α β : Type} (f : α → Except String β) (g : α → β)
    (hf : ∀ a, f a = .ok (g a)) : ∀ l : List α, mapExcept f l = .ok (l.map g) := by
  intro l
  induction l with
  | nil => rfl
  | cons a l ih => simp only [mapExcept, hf a, ih, List.map_cons]; rfl

theorem getDepthsE_eq (alpha : ℚ) : _get_depthsE alpha = .ok (_get_depths alpha) :=
  mapExcept_ok _ _ (fun d => roundE_ok (by norm_num) (by norm_num) ((d : ℚ) * alpha) 8) _

theorem getDepths_nonpos {alpha : ℚ} (h : alpha ≤ 0) :
    _get_depths alpha = [8, 8, 8, 8, 8, 8, 8, 8] := by
  have hr : ∀ c : ℚ, 0 ≤ c → _round_to_multiple_of (c * alpha) 8 (9/10) = 8 := by
    intro c hc
    exact round_of_nonpos (mul_nonpos_iff.mpr (Or.inl ⟨hc, h⟩)) (by norm_num)
  simp [_get_depths, referenceDepths, hr 32 (by norm_num), hr 16 (by norm_num),
    hr 24 (by norm_num), hr 40 (by norm_num), hr 80 (by norm_num), hr 96 (by norm_num),
    hr 192 (by norm_num), hr 320 (by norm_num)]

theorem getDepthsE_nonpos {alpha : ℚ} (h : alpha ≤ 0) :
    _get_depthsE alpha = .ok [8, 8, 8, 8, 8, 8, 8, 8] := by
  rw [getDepthsE_eq, getDepths_nonpos h]

theorem depths_at_half : _get_depths (1/2) = [16, 8, 16, 24, 40, 48, 96, 160] := by
  norm_num [_get_depths, referenceDepths, _round_to_multiple_of, pyTrunc, fdiv_eight]

theorem depths_at_3_4 : _get_depths (3/4) = [24, 16, 24, 32, 64, 72, 144, 240] := by
  norm_num [_get_depths, referenceDepths, _round_to_multiple_of, pyTrunc, fdiv_eight]

theorem depths_at_1 : _get_depths 1 = [32, 16, 24, 40, 80, 96, 192, 320] := by
  norm_num [_get_depths, referenceDepths, _round_to_multiple_of, pyTrunc, fdiv_eight]

theorem depths_at_13_10 : _get_depths (13/10) = [40, 24, 32, 56, 104, 128, 248, 416] := by
  norm_num [_get_depths, referenceDepths, _round_to_multiple_of, pyTrunc, fdiv_eight]

theorem newVal_mono {v1 v2 : ℚ} (h : v1 ≤ v2) :
    max (8:ℤ) ((pyTrunc (v1 + 4)).fdiv 8 * 8) ≤ max 8 ((pyTrunc (v2 + 4)).fdiv 8 * 8) := by
  have ht : pyTrunc (v1 + 4) ≤ pyTrunc (v2 + 4) := pyTrunc_mono (by linarith)
  have hf : (pyTrunc (v1 + 4)).fdiv 8 ≤ (pyTrunc (v2 + 4)).fdiv 8 := by
    rw [fdiv_eight, fdiv_eight]
    exact Int.ediv_le_ediv (by norm_num) ht
  exact max_le_max le_rfl (by nlinarith)

/-! ## Claim theorems about the rounding and depth-list functions -/

/-- C5: with divisor `8` and the default bias `0.9`,
`_round_to_multiple_of(83, 8)` returns `80` and `_round_to_multiple_of(84, 8)`
returns `88` (and neither call raises). -/
theorem round_boundary_83_84 :
    _round_to_multiple_ofE 83 8 (9/10) = .ok 80 ∧
    _round_to_multiple_ofE 84 8 (9/10) = .ok 88 := by
  constructor <;>
    norm_num [_round_to_multiple_ofE, _round_to_multiple_of, pyTrunc, fdiv_eight]

/-- C2: for every width multiplier `alpha > 0`, `_get_depths alpha` is a
list of exactly 8 integers, each a positive multiple of 8; equivalently,
every call of `_round_to_multiple_of` with divisor 8 and bias `0.9` returns
a positive multiple of 8. -/
theorem getDepths_eight_positive_multiples (alpha : ℚ) (h : 0 < alpha) :
    (_get_depths alpha).length = 8 ∧
    (∀ d ∈ _get_depths alpha, 0 < d ∧ (8:ℤ) ∣ d) ∧
    (∀ val : ℚ, 0 < _round_to_multiple_of val 8 (9/10) ∧
      (8:ℤ) ∣ _round_to_multiple_of val 8 (9/10)) := by
  refine ⟨by simp [_get_depths, referenceDepths], ?_, ?_⟩
  · intro d hd
    simp only [_get_depths, List.mem_map] at hd
    obtain ⟨r, _, rfl⟩ := hd
    exact ⟨lt_of_lt_of_le (by norm_num) (round_ge_eight _ _), round_dvd _ _⟩
  · intro val
    exact ⟨lt_of_lt_of_le (by norm_num) (round_ge_eight _ _), round_dvd _ _⟩

theorem getDepths_eight_positive_multiples_witness :
    0 < (1:ℚ) ∧
    ((_get_depths 1).length = 8 ∧
    (∀ d ∈ _get_depths 1, 0 < d ∧ (8:ℤ) ∣ d) ∧
    (∀ val : ℚ, 0 < _round_to_multiple_of val 8 (9/10) ∧
      (8:ℤ) ∣ _round_to_multiple_of val 8 (9/10))) :=
  ⟨by decide, getDepths_eight_positive_multiples 1 (by decide)⟩

/-- C9: `_round_to_multiple_of` with divisor 8 never returns less than 8
(the `max(divisor, ...)` clamp), for every value including nonpositive
ones and every bias strictly between 0 and 1; consequently `_get_depths`
evaluates without error on every `alpha ≤ 0` and returns
`[8, 8, 8, 8, 8, 8, 8, 8]` there. -/
theorem round_clamped_at_eight :
    (∀ val bias : ℚ, 0 < bias → bias < 1 → 8 ≤ _round_to_multiple_of val 8 bias) ∧
    (∀ alpha : ℚ, alpha ≤ 0 → _get_depthsE alpha = .ok [8, 8, 8, 8, 8, 8, 8, 8]) :=
  ⟨fun val bias _ _ => round_ge_eight val bias, fun _ h => getDepthsE_nonpos h⟩

theorem round_clamped_at_eight_witness :
    (8 ≤ _round_to_multiple_of (-3) 8 (1/2)) ∧
    _get_depthsE (-2) = .ok [8, 8, 8, 8, 8, 8, 8, 8] :=
  ⟨round_clamped_at_eight.1 (-3) (1/2) one_half_pos one_half_lt_one,
   round_clamped_at_eight.2 (-2) (by decide)⟩

/-- C8 counterexample: `_get_depths(-1)` does not fail; it evaluates to
`[8, 8, 8, 8, 8, 8, 8, 8]` (the `alpha > 0` assert lives in
`MNASNet.__init__`, not in `_get_depths`). -/
theorem getDepths_neg_one_no_raise :
    _get_depthsE (-1) = .ok [8, 8, 8, 8, 8, 8, 8, 8] :=
  getDepthsE_nonpos (by decide)

/-- C8 amended: the rejection of `alpha ≤ 0` happens in the network
constructor, which raises before `_get_depths` is used. -/
theorem constructor_rejects_nonpositive_alpha (alpha : ℚ) (class_num : ℤ) (dropout : ℚ)
    (h : alpha ≤ 0) : ∃ msg, MNASNet.init alpha class_num dropout = .error msg := by
  refine ⟨"AssertionError: alpha", ?_⟩
  simp only [MNASNet.init]
  rw [if_neg (not_lt.mpr h)]

theorem constructor_rejects_nonpositive_alpha_witness :
    (-1:ℚ) ≤ 0 ∧ ∃ msg, MNASNet.init (-1) 1000 0 = .error msg :=
  ⟨by decide, constructor_rejects_nonpositive_alpha (-1) 1000 0 (by decide)⟩

/-- C10: for fixed divisor 8 and any bias strictly between 0 and 1,
`_round_to_multiple_of` is monotone non-decreasing in its value argument. -/
theorem round_monotone (bias v1 v2 : ℚ) (hb0 : 0 < bias) (hb1 : bias < 1) (h : v1 ≤ v2) :
    _round_to_multiple_of v1 8 bias ≤ _round_to_multiple_of v2 8 bias := by
  rw [roundCore_eq, roundCore_eq]
  set n1 := max (8:ℤ) ((pyTrunc (v1 + 4)).fdiv 8 * 8) with hn1
  set n2 := max (8:ℤ) ((pyTrunc (v2 + 4)).fdiv 8 * 8) with hn2
  have hn : n1 ≤ n2 := newVal_mono h
  have hd1 : (8:ℤ) ∣ n1 := dvd_max_eight _
  have hd2 : (8:ℤ) ∣ n2 := dvd_max_eight _
  have hstep : n1 = n2 ∨ n1 + 8 ≤ n2 := by
    rcases lt_or_eq_of_le hn with hlt | heq
    · right
      have hdvd : (8:ℤ) ∣ n2 - n1 := dvd_sub hd2 hd1
      have := Int.le_of_dvd (by omega) hdvd
      omega
    · left; exact heq
  split_ifs with h1 h2 h2
  · exact hn
  · omega
  · rcases hstep with heq | hle
    · exfalso
      apply h1
      calc bias * v1 ≤ bias * v2 := mul_le_mul_of_nonneg_left h hb0.le
        _ ≤ (n2:ℚ) := h2
        _ = (n1:ℚ) := by rw [heq]
    · exact hle
  · omega

theorem round_monotone_witness :
    _round_to_multiple_of 0 8 (1/2) ≤ _round_to_multiple_of 1 8 (1/2) :=
  round_monotone (1/2) 0 1 one_half_pos one_half_lt_one (by decide)

/-- C6: the four preset width multipliers `0.5`, `0.75`, `1.0`, `1.3`
produce pairwise distinct depth lists, and `_get_depths 1` is exactly
`[32, 16, 24, 40, 80, 96, 192, 320]`. -/
theorem preset_depths_distinct :
    _get_depths 1 = [32, 16, 24, 40, 80, 96, 192, 320] ∧
    _get_depths (1/2) ≠ _get_depths (3/4) ∧
    _get_depths (1/2) ≠ _get_depths 1 ∧
    _get_depths (1/2) ≠ _get_depths (13/10) ∧
    _get_depths (3/4) ≠ _get_depths 1 ∧
    _get_depths (3/4) ≠ _get_depths (13/10) ∧
    _get_depths 1 ≠ _get_depths (13/10) := by
  rw [depths_at_half, depths_at_3_4, depths_at_1, depths_at_13_10]
  refine ⟨rfl, ?_, ?_, ?_, ?_, ?_, ?_⟩ <;> decide

/-! ## Value-level block and stage lemmas -/

theorem init_ok {T : Type} (mkLayers : ℤ → ℤ → ℤ → ℤ → ℤ → ℚ → (T → T))
    (in_ch out_ch kernel_size stride expansion_factor : ℤ) (bn_momentum : ℚ)
    (hs : stride = 1 ∨ stride = 2) (hk : kernel_size = 3 ∨ kernel_size = 5) :
    _InvertedResidual.init mkLayers in_ch out_ch kernel_size stride expansion_factor
        bn_momentum =
      .ok ⟨in_ch, out_ch, kernel_size, stride, decide (in_ch = out_ch ∧ stride = 1),
           mkLayers in_ch out_ch kernel_size stride expansion_factor bn_momentum⟩ := by
  rw [_InvertedResidual.init, if_pos hs, if_pos hk]

theorem mapExcept_const_ok {α β : Type} (f : α → Except String β) (b : β)
    (hf : ∀ a, f a = .ok b) :
    ∀ l : List α, mapExcept f l = .ok (List.replicate l.length b) := by
  intro l
  induction l with
  | nil => rfl
  | cons a l ih =>
    simp only [mapExcept, hf a, ih, List.length_cons, List.replicate_succ]
    rfl

theorem stack_ok {T : Type} (mkLayers : ℤ → ℤ → ℤ → ℤ → ℤ → ℚ → (T → T))
    (in_ch out_ch kernel_size stride exp_factor repeats : ℤ) (bn_momentum : ℚ)
    (hs : stride = 1 ∨ stride = 2) (hk : kernel_size = 3 ∨ kernel_size = 5)
    (hr : 1 ≤ repeats) :
    _stack mkLayers in_ch out_ch kernel_size stride exp_factor repeats bn_momentum =
      .ok (⟨in_ch, out_ch, kernel_size, stride, decide (in_ch = out_ch ∧ stride = 1),
            mkLayers in_ch out_ch kernel_size stride exp_factor bn_momentum⟩ ::
        List.replicate (repeats - 1).toNat
          ⟨out_ch, out_ch, kernel_size, 1, true,
            mkLayers out_ch out_ch kernel_size 1 exp_factor bn_momentum⟩) := by
  have hrest : ∀ a : ℕ, _InvertedResidual.init mkLayers out_ch out_ch kernel_size 1
      exp_factor bn_momentum =
      .ok ⟨out_ch, out_ch, kernel_size, 1, true,
           mkLayers out_ch out_ch kernel_size 1 exp_factor bn_momentum⟩ := by
    intro a
    rw [init_ok mkLayers out_ch out_ch kernel_size 1 exp_factor bn_momentum
      (Or.inl rfl) hk]
    simp
  rw [_stack, if_pos hr,
    init_ok mkLayers in_ch out_ch kernel_size stride exp_factor bn_momentum hs hk,
    mapExcept_const_ok _ _ hrest, List.length_range]
  rfl

/-- C1: the forward evaluation of an `_InvertedResidual` block built with
kernel size in `[3, 5]` and stride in `[1, 2]` is `layers(input) + input`
exactly when `in_ch = out_ch` and `stride = 1`, and `layers(input)`
unmodified in every other case. -/
theorem invertedResidual_forward_shortcut {T : Type} [Add T]
    (mkLayers : ℤ → ℤ → ℤ → ℤ → ℤ → ℚ → (T → T))
    (in_ch out_ch kernel_size stride expansion_factor : ℤ) (bn_momentum : ℚ)
    (hk : kernel_size = 3 ∨ kernel_size = 5) (hs : stride = 1 ∨ stride = 2)
    (b : _InvertedResidual T)
    (hb : _InvertedResidual.init mkLayers in_ch out_ch kernel_size stride expansion_factor
      bn_momentum = .ok b) (input : T) :
    b.forward input =
      (if in_ch = out_ch ∧ stride = 1
       then mkLayers in_ch out_ch kernel_size stride expansion_factor bn_momentum input + input
       else mkLayers in_ch out_ch kernel_size stride expansion_factor bn_momentum input) := by
  rw [init_ok mkLayers in_ch out_ch kernel_size stride expansion_factor bn_momentum hs hk]
    at hb
  injection hb with hb
  subst hb
  by_cases hc : in_ch = out_ch ∧ stride = 1 <;>
    simp [_InvertedResidual.forward, hc]

theorem invertedResidual_forward_shortcut_witness :
    ((3:ℤ) = 3 ∨ (3:ℤ) = 5) ∧ ((1:ℤ) = 1 ∨ (1:ℤ) = 2) ∧
    _InvertedResidual.init (fun _ _ _ _ _ _ (x : ℤ) => x + x) 16 16 3 1 3 (1/10)
      = .ok ⟨16, 16, 3, 1, true, fun x => x + x⟩ ∧
    _InvertedResidual.forward ⟨16, 16, 3, 1, true, fun (x : ℤ) => x + x⟩ 5 =
      (if (16:ℤ) = 16 ∧ (1:ℤ) = 1 then (5 + 5) + 5 else 5 + 5) :=
  ⟨Or.inl rfl, Or.inl rfl, rfl,
   invertedResidual_forward_shortcut (fun _ _ _ _ _ _ (x : ℤ) => x + x) 16 16 3 1 3 (1/10)
     (Or.inl rfl) (Or.inl rfl) _ rfl 5⟩

/-- C7: for every repeat count `repeats ≥ 1` (and valid kernel and stride),
`_stack` returns exactly `repeats` blocks; the first uses the given stride
and maps `in_ch` to `out_ch`, and every later block uses stride 1 and maps
`out_ch` to `out_ch`, hence applies the residual shortcut. -/
theorem stack_structure {T : Type}
    (mkLayers : ℤ → ℤ → ℤ → ℤ → ℤ → ℚ → (T → T))
    (in_ch out_ch kernel_size stride exp_factor repeats : ℤ) (bn_momentum : ℚ)
    (hs : stride = 1 ∨ stride = 2) (hk : kernel_size = 3 ∨ kernel_size = 5)
    (hr : 1 ≤ repeats) :
    ∃ first rest, _stack mkLayers in_ch out_ch kernel_size stride exp_factor repeats
        bn_momentum = .ok (first :: rest) ∧
      (first :: rest).length = repeats.toNat ∧
      first.in_ch = in_ch ∧ first.out_ch = out_ch ∧
      first.kernel_size = kernel_size ∧ first.stride = stride ∧
      (∀ b ∈ rest, b.in_ch = out_ch ∧ b.out_ch = out_ch ∧ b.stride = 1 ∧
        b.kernel_size = kernel_size ∧ b.apply_residual = true) := by
  refine ⟨_, _, stack_ok mkLayers in_ch out_ch kernel_size stride exp_factor repeats
    bn_momentum hs hk hr, ?_, rfl, rfl, rfl, rfl, ?_⟩
  · simp only [List.length_cons, List.length_replicate]
    omega
  · intro b hb
    rw [List.eq_of_mem_replicate hb]
    exact ⟨rfl, rfl, rfl, rfl, rfl⟩

theorem stack_structure_witness :
    ((2:ℤ) = 1 ∨ (2:ℤ) = 2) ∧ ((3:ℤ) = 3 ∨ (3:ℤ) = 5) ∧ (1 ≤ (3:ℤ)) ∧
    ∃ first rest, _stack (fun _ _ _ _ _ _ (x : ℤ) => x) 16 24 3 2 3 3 (9/10)
        = .ok (first :: rest) ∧
      (first :: rest).length = (3:ℤ).toNat ∧
      first.in_ch = 16 ∧ first.out_ch = 24 ∧
      first.kernel_size = 3 ∧ first.stride = 2 ∧
      (∀ b ∈ rest, b.in_ch = 24 ∧ b.out_ch = 24 ∧ b.stride = 1 ∧
        b.kernel_size = 3 ∧ b.apply_residual = true) :=
  ⟨Or.inr rfl, Or.inl rfl, by decide,
   stack_structure (fun _ _ _ _ _ _ (x : ℤ) => x) 16 24 3 2 3 3 (9/10)
     (Or.inr rfl) (Or.inl rfl) (by decide)⟩

/-! ## Constructor evaluation for the full network -/

theorem bindE_ok {α β : Type} (a : α) (f : α → Except String β) :
    (Except.ok a >>= f) = f a := rfl

theorem mnasnet_init_ok (alpha : ℚ) (class_num : ℤ) (dropout : ℚ) (h : 0 < alpha) :
    MNASNet.init alpha class_num dropout =
      .ok (assembledNet alpha class_num
        ((_get_depths alpha).getD 0 0) ((_get_depths alpha).getD 1 0)
        ((_get_depths alpha).getD 2 0) ((_get_depths alpha).getD 3 0)
        ((_get_depths alpha).getD 4 0) ((_get_depths alpha).getD 5 0)
        ((_get_depths alpha).getD 6 0) ((_get_depths alpha).getD 7 0)) := by
  simp only [MNASNet.init]
  rw [if_pos h, getDepthsE_eq, bindE_ok]
  rw [stack_ok invertedResidualLayers ((_get_depths alpha).getD 1 0)
    ((_get_depths alpha).getD 2 0) 3 2 3 3 _BN_MOMENTUM (Or.inr rfl) (Or.inl rfl)
    (by decide), bindE_ok]
  rw [stack_ok invertedResidualLayers ((_get_depths alpha).getD 2 0)
    ((_get_depths alpha).getD 3 0) 5 2 3 3 _BN_MOMENTUM (Or.inr rfl) (Or.inr rfl)
    (by decide), bindE_ok]
  rw [stack_ok invertedResidualLayers ((_get_depths alpha).getD 3 0)
    ((_get_depths alpha).getD 4 0) 5 2 6 3 _BN_MOMENTUM (Or.inr rfl) (Or.inr rfl)
    (by decide), bindE_ok]
  rw [stack_ok invertedResidualLayers ((_get_depths alpha).getD 4 0)
    ((_get_depths alpha).getD 5 0) 3 1 6 2 _BN_MOMENTUM (Or.inl rfl) (Or.inl rfl)
    (by decide), bindE_ok]
  rw [stack_ok invertedResidualLayers ((_get_depths alpha).getD 5 0)
    ((_get_depths alpha).getD 6 0) 5 2 6 4 _BN_MOMENTUM (Or.inr rfl) (Or.inr rfl)
    (by decide), bindE_ok]
  rw [stack_ok invertedResidualLayers ((_get_depths alpha).getD 6 0)
    ((_get_depths alpha).getD 7 0) 3 1 6 1 _BN_MOMENTUM (Or.inl rfl) (Or.inl rfl)
    (by decide), bindE_ok]
  simp [assembledNet, assembledLayers, stageStride2, stageStride1]

/-! ## Shape evaluation of the forward pass -/

theorem optAdd_eq (a b : Option Tensor) : a + b = addTensor a b := rfl

set_option maxRecDepth 40000 in
theorem assembledLayers_shape (d0 d1 d2 d3 d4 d5 d6 d7 n : ℤ) :
    assembledLayers d0 d1 d2 d3 d4 d5 d6 d7 (some ⟨[n, 3, 224, 224]⟩) =
      some ⟨[n, 1280]⟩ := by
  rcases eq_or_ne d4 d5 with h45 | h45 <;> rcases eq_or_ne d6 d7 with h67 | h67
  · subst h45; subst h67
    simp [assembledLayers, sequential, List.foldl, seqBlocks, List.map, stageStride2,
      stageStride1, List.replicate, _InvertedResidual.forward, invertedResidualLayers,
      conv2D, batchNorm2D, relu, adaptiveAvgPool2D, flatten, optAdd_eq, addTensor,
      Int.emod_self, Int.emod_one]
  · subst h45
    simp [assembledLayers, sequential, List.foldl, seqBlocks, List.map, stageStride2,
      stageStride1, List.replicate, _InvertedResidual.forward, invertedResidualLayers,
      conv2D, batchNorm2D, relu, adaptiveAvgPool2D, flatten, optAdd_eq, addTensor,
      Int.emod_self, Int.emod_one, h67]
  · subst h67
    simp [assembledLayers, sequential, List.foldl, seqBlocks, List.map, stageStride2,
      stageStride1, List.replicate, _InvertedResidual.forward, invertedResidualLayers,
      conv2D, batchNorm2D, relu, adaptiveAvgPool2D, flatten, optAdd_eq, addTensor,
      Int.emod_self, Int.emod_one, h45]
  · simp [assembledLayers, sequential, List.foldl, seqBlocks, List.map, stageStride2,
      stageStride1, List.replicate, _InvertedResidual.forward, invertedResidualLayers,
      conv2D, batchNorm2D, relu, adaptiveAvgPool2D, flatten, optAdd_eq, addTensor,
      Int.emod_self, Int.emod_one, h45, h67]

theorem assembledNet_forward (alpha : ℚ) (class_num d0 d1 d2 d3 d4 d5 d6 d7 n : ℤ) :
    (assembledNet alpha class_num d0 d1 d2 d3 d4 d5 d6 d7).forward
      (some ⟨[n, 3, 224, 224]⟩) = some ⟨[n, class_num]⟩ := by
  simp [MNASNet.forward, assembledNet, assembledLayers_shape, linear]

/-- C3: for every constructed network (any `alpha > 0`, any `class_num`)
and every input of shape `(N, 3, 224, 224)`, forward evaluation returns a
tensor of shape `(N, class_num)`. -/
theorem mnasnet_forward_shape (alpha : ℚ) (class_num : ℤ) (dropout : ℚ) (n : ℤ)
    (h : 0 < alpha) :
    ∃ net, MNASNet.init alpha class_num dropout = .ok net ∧
      net.forward (some ⟨[n, 3, 224, 224]⟩) = some ⟨[n, class_num]⟩ :=
  ⟨_, mnasnet_init_ok alpha class_num dropout h,
   assembledNet_forward alpha class_num _ _ _ _ _ _ _ _ n⟩

theorem mnasnet_forward_shape_witness :
    0 < (1:ℚ) ∧ ∃ net, MNASNet.init 1 1000 0 = .ok net ∧
      net.forward (some ⟨[2, 3, 224, 224]⟩) = some ⟨[2, 1000]⟩ :=
  ⟨by decide, mnasnet_forward_shape 1 1000 0 2 (by decide)⟩

/-- C4: every precondition is checked fail-fast at construction time:
`alpha ≤ 0`, a kernel size outside `[3, 5]`, a stride outside `[1, 2]`, or
a repeat count below 1 make the respective constructor return an error (and
nothing is built), and `_round_to_multiple_of` errors when its bias is not
strictly between 0 and 1; conversely, for every `alpha > 0` the network
construction completes and returns a fully built network, so no
precondition failure is deferred to forward-evaluation time. -/
theorem construction_fail_fast :
    (∀ (alpha : ℚ) (class_num : ℤ) (dropout : ℚ), alpha ≤ 0 →
      ∃ msg, MNASNet.init alpha class_num dropout = .error msg) ∧
    (∀ (T : Type) (mkLayers : ℤ → ℤ → ℤ → ℤ → ℤ → ℚ → (T → T))
      (in_ch out_ch kernel_size stride expansion_factor : ℤ) (bn_momentum : ℚ),
      stride ≠ 1 ∧ stride ≠ 2 →
      ∃ msg, _InvertedResidual.init mkLayers in_ch out_ch kernel_size stride
        expansion_factor bn_momentum = .error msg) ∧
    (∀ (T : Type) (mkLayers : ℤ → ℤ → ℤ → ℤ → ℤ → ℚ → (T → T))
      (in_ch out_ch kernel_size stride expansion_factor : ℤ) (bn_momentum : ℚ),
      kernel_size ≠ 3 ∧ kernel_size ≠ 5 →
      ∃ msg, _InvertedResidual.init mkLayers in_ch out_ch kernel_size stride
        expansion_factor bn_momentum = .error msg) ∧
    (∀ (T : Type) (mkLayers : ℤ → ℤ → ℤ → ℤ → ℤ → ℚ → (T → T))
      (in_ch out_ch kernel_size stride exp_factor repeats : ℤ) (bn_momentum : ℚ),
      repeats < 1 →
      ∃ msg, _stack mkLayers in_ch out_ch kernel_size stride exp_factor repeats
        bn_momentum = .error msg) ∧
    (∀ (val : ℚ) (divisor : ℤ) (round_up_bias : ℚ), ¬(0 < round_up_bias ∧ round_up_bias < 1) →
      ∃ msg, _round_to_multiple_ofE val divisor round_up_bias = .error msg) ∧
    (∀ (alpha : ℚ) (class_num : ℤ) (dropout : ℚ), 0 < alpha →
      ∃ net, MNASNet.init alpha class_num dropout = .ok net) := by
  refine ⟨?_, ?_, ?_, ?_, ?_, ?_⟩
  · intro alpha class_num dropout h
    exact constructor_rejects_nonpositive_alpha alpha class_num dropout h
  · intro T mkLayers in_ch out_ch kernel_size stride expansion_factor bn_momentum hs
    refine ⟨"AssertionError: stride not in [1, 2]", ?_⟩
    rw [_InvertedResidual.init, if_neg (by tauto)]
  · intro T mkLayers in_ch out_ch kernel_size stride expansion_factor bn_momentum hk
    by_cases hs : stride = 1 ∨ stride = 2
    · refine ⟨"AssertionError: kernel_size not in [3, 5]", ?_⟩
      rw [_InvertedResidual.init, if_pos hs, if_neg (by tauto)]
    · refine ⟨"AssertionError: stride not in [1, 2]", ?_⟩
      rw [_InvertedResidual.init, if_neg hs]
  · intro T mkLayers in_ch out_ch kernel_size stride exp_factor repeats bn_momentum hr
    refine ⟨"AssertionError: repeats", ?_⟩
    rw [_stack, if_neg (by omega)]
  · intro val divisor round_up_bias hb
    refine ⟨"AssertionError: round_up_bias", ?_⟩
    rw [_round_to_multiple_ofE, if_neg hb]
  · intro alpha class_num dropout h
    exact ⟨_, mnasnet_init_ok alpha class_num dropout h⟩

theorem construction_fail_fast_witness :
    (∃ msg, MNASNet.init 0 1000 0 = .error msg) ∧
    (∃ msg, _InvertedResidual.init (fun _ _ _ _ _ _ (x : ℤ) => x) 16 16 3 7 3 (1/10)
      = .error msg) ∧
    (∃ msg, _InvertedResidual.init (fun _ _ _ _ _ _ (x : ℤ) => x) 16 16 4 1 3 (1/10)
      = .error msg) ∧
    (∃ msg, _stack (fun _ _ _ _ _ _ (x : ℤ) => x) 16 24 3 2 3 0 (9/10) = .error msg) ∧
    (∃ msg, _round_to_multiple_ofE 83 8 2 = .error msg) ∧
    (∃ net, MNASNet.init 2 1000 0 = .ok net) :=
  ⟨construction_fail_fast.1 0 1000 0 (by decide),
   construction_fail_fast.2.1 ℤ (fun _ _ _ _ _ _ x => x) 16 16 3 7 3 (1/10)
     ⟨by decide, by decide⟩,
   construction_fail_fast.2.2.1 ℤ (fun _ _ _ _ _ _ x => x) 16 16 4 1 3 (1/10)
     ⟨by decide, by decide⟩,
   construction_fail_fast.2.2.2.1 ℤ (fun _ _ _ _ _ _ x => x) 16 24 3 2 3 0 (9/10)
     (by decide),
   construction_fail_fast.2.2.2.2.1 83 8 2 (by
     intro hc
     exact absurd hc.2 (by decide)),
   construction_fail_fast.2.2.2.2.2 2 1000 0 (by decide)⟩
